import Mathlib

/-!
# sisapi: a verification development for the SIS client

Shallow embedding of `sis_api.go`.

* Go strings are Lean `String`s (valid UTF-8 text); `url.QueryEscape` works on
  the UTF-8 bytes of its argument, as the Go library does.
* A Go `error` is `Option GoError` (`none` is `nil`), a `*Person` is
  `Option Person` (`none` is `nil`), a `[]Person` is `Option (List Person)`
  (`none` is the nil slice).
* The logger and the URL fetcher are the two injected collaborators of the
  client.  They act on an outside world of type `σ`; every call of one of
  their methods is recorded in a trace, so that the order and the arguments of
  the calls can be stated.
* `json.Unmarshal` is taken as a parameter (`Json`), one decoder per target
  type the source decodes into.
-/

namespace sisapi

/-! ## Go values -/

/-- A Go `error` value, known by the text its `Error()` method returns. -/
structure GoError where
  Error : String
  deriving DecidableEq, Repr

/-- Go's `errors.New`. -/
def errorsNew (text : String) : GoError := ⟨text⟩

/-- The `Person` struct of `sis_api.go`. -/
structure Person where
  Uuid : String
  StudentNumber : String
  FirstName : String
  PreferredFirstName : String
  MiddleName : String
  LastName : String
  Sex : String
  Title : String
  Error : String
  ErrorDetails : String
  deriving DecidableEq, Repr

/-- The local `AuthResponse` struct of `Authenticate`. -/
structure AuthResponse where
  Token : String
  Error : String
  deriving DecidableEq, Repr

/-- The local `Response` struct of `RemovePersonFromGroup` and `AddPersonToGroup`. -/
structure Response where
  Success : String
  Error : String
  deriving DecidableEq, Repr

/-- The uses of `json.Unmarshal` in `sis_api.go`, one decoder per target type:
`.ok v` is a nil error with `v` stored in the target, `.error e` is the error `e`.
Decoding into a `[]Person` may leave the slice nil (`none`). -/
structure Json where
  unmarshalAuthResponse : String → Except GoError AuthResponse
  unmarshalPerson : String → Except GoError Person
  unmarshalPeople : String → Except GoError (Option (List Person))
  unmarshalResponse : String → Except GoError Response

/-! ## `net/url.QueryEscape` -/

/-- The table `upperhex` of Go's `net/url`. -/
def upperhex : List Char := "0123456789ABCDEF".data

/-- Go's `shouldEscape(c, encodeQueryComponent)`: letters, digits and the marks
`-`, `_`, `.`, `~` are kept, every other byte is escaped. -/
def shouldEscape (c : Nat) : Bool :=
  if (97 ≤ c ∧ c ≤ 122) ∨ (65 ≤ c ∧ c ≤ 90) ∨ (48 ≤ c ∧ c ≤ 57) then false
  else if c = 45 ∨ c = 95 ∨ c = 46 ∨ c = 126 then false
  else true

/-- One step of the second loop of Go's `escape` in mode `encodeQueryComponent`:
a space becomes `+`, a byte to escape becomes `%` and its two upper-case hex
digits (`upperhex[c>>4]`, `upperhex[c&15]`), any other byte is copied. -/
def escapeByte (c : Nat) : List Char :=
  if c = 32 then [Char.ofNat 43]
  else if shouldEscape c then [Char.ofNat 37, upperhex.getD (c / 16) '0', upperhex.getD (c % 16) '0']
  else [Char.ofNat c]

/-- Go's `url.QueryEscape`, over the UTF-8 bytes of `s`. -/
def QueryEscape (s : String) : String :=
  ⟨(s.data.flatMap String.utf8EncodeChar).flatMap fun b => escapeByte b.toNat⟩

/-- The characters `url.QueryEscape` lets through or produces: letters, digits,
the marks `-`, `_`, `.`, `~`, and the `%` and `+` of the escapes. -/
def escapedChar (c : Char) : Bool :=
  c.isAlphanum || c = '-' || c = '_' || c = '.' || c = '~' || c = '%' || c = '+'

/-! ## Collaborators and the outside world -/

/-- What `sis_api.go` uses of the four results of `LookupUrl.GetUrl`: the body
and the error (the two results in between are discarded with `_`). -/
structure GetUrlResult where
  body : String
  err : Option GoError
  deriving DecidableEq, Repr

/-- A call of a collaborator's method, with its arguments. -/
inductive Effect where
  | Debug (message : String) (items : List String)
  | GetUrl (url : String)
  deriving DecidableEq, Repr

/-- The outside world: its own state and the calls made so far, oldest first. -/
structure World (σ : Type) where
  env : σ
  trace : List Effect

/-- The `SisLogger` interface. -/
structure SisLogger (σ : Type) where
  Debug : σ → String → List String → Option GoError × σ

/-- The `LookupUrl` interface, as `sis_api.go` uses it. -/
structure LookupUrl (σ : Type) where
  GetUrl : σ → String → GetUrlResult × σ

/-- `NilSisLogger`: `Debug` does nothing and returns nil. -/
def NilSisLogger {σ : Type} : SisLogger σ := ⟨fun s _ _ => (none, s)⟩

/-- The `SisApi` struct. -/
structure SisApi (σ : Type) where
  base : String
  email : String
  password : String
  token : String
  log : SisLogger σ
  fetch : LookupUrl σ

/-- The statement `m.log.Debug(message, items...)`; the returned error is dropped,
as in the source. -/
def callDebug {σ : Type} (m : SisApi σ) (w : World σ) (message : String) (items : List String) :
    World σ :=
  { env := (m.log.Debug w.env message items).2, trace := w.trace ++ [Effect.Debug message items] }

/-- The statement `body, _, _, err := m.fetch.GetUrl(url)`. -/
def callGetUrl {σ : Type} (m : SisApi σ) (w : World σ) (url : String) : GetUrlResult × World σ :=
  ((m.fetch.GetUrl w.env url).1,
   { env := (m.fetch.GetUrl w.env url).2, trace := w.trace ++ [Effect.GetUrl url] })

/-- What a method of `*SisApi` leaves behind: its return value, the client and
the outside world. -/
structure Ret (α σ : Type) where
  val : α
  m : SisApi σ
  w : World σ

/-! ## The client -/

/-- `NewSisApi`; the default fetcher `DefaultLookupUrl` is declared outside
`sis_api.go` and is passed in. -/
def NewSisApi {σ : Type} (DefaultLookupUrl : LookupUrl σ) (base email password : String) :
    SisApi σ :=
  { base := base, email := email, password := password, token := "",
    log := NilSisLogger, fetch := DefaultLookupUrl }

/-- `SetLogger`. -/
def SetLogger {σ : Type} (m : SisApi σ) (l : SisLogger σ) : SisApi σ := { m with log := l }

/-- `SetUrlFetcher`. -/
def SetUrlFetcher {σ : Type} (m : SisApi σ) (fetch : LookupUrl σ) : SisApi σ :=
  { m with fetch := fetch }

/-- The URL `Authenticate` builds. -/
def authenticateUrl {σ : Type} (m : SisApi σ) : String :=
  m.base ++ "api/authenticate?email=" ++ QueryEscape m.email ++ "&password=" ++
    QueryEscape m.password

/-- `Authenticate`. -/
def Authenticate {σ : Type} (json : Json) (m : SisApi σ) (w : World σ) :
    Ret (Option GoError) σ :=
  let url := authenticateUrl m
  let w := callDebug m w "Fetch: %s" [url]
  let r := callGetUrl m w url
  match r.1.err with
  | some err => ⟨some err, m, r.2⟩
  | none =>
    match json.unmarshalAuthResponse r.1.body with
    | .error err =>
      ⟨some (errorsNew ("Server returned unexpected response. " ++ err.Error)), m, r.2⟩
    | .ok result =>
      if result.Error ≠ "" then ⟨some (errorsNew result.Error), m, r.2⟩
      else ⟨none, { m with token := result.Token }, r.2⟩

/-- The URL `GetPerson` builds. -/
def getPersonUrl {σ : Type} (m : SisApi σ) (uuid : String) : String :=
  m.base ++ "api/person?token=" ++ m.token ++ "&uuid=" ++ QueryEscape uuid

/-- `GetPerson`. -/
def GetPerson {σ : Type} (json : Json) (m : SisApi σ) (w : World σ) (uuid : String) :
    Ret (Option Person × Option GoError) σ :=
  let url := getPersonUrl m uuid
  let w := callDebug m w "Fetch: %s" [url]
  let r := callGetUrl m w url
  match r.1.err with
  | some err => ⟨(none, some err), m, r.2⟩
  | none =>
    match json.unmarshalPerson r.1.body with
    | .error err =>
      ⟨(none, some (errorsNew ("Server returned unexpected response. " ++ err.Error))), m, r.2⟩
    | .ok result =>
      if result.Error ≠ "" then ⟨(none, some (errorsNew result.Error)), m, r.2⟩
      else ⟨(some result, none), m, r.2⟩

/-- The URL `SearchPeople` builds. -/
def searchPeopleUrl {σ : Type} (m : SisApi σ) (q : String) : String :=
  m.base ++ "api/student.search?token=" ++ m.token ++ "&q=" ++ QueryEscape q

/-- `SearchPeople`; `results[:]` of a nil slice is nil, of a slice is the slice. -/
def SearchPeople {σ : Type} (json : Json) (m : SisApi σ) (w : World σ) (q : String) :
    Ret (Option (List Person) × Option GoError) σ :=
  let url := searchPeopleUrl m q
  let w := callDebug m w "Fetch: %s" [url]
  let r := callGetUrl m w url
  match r.1.err with
  | some err => ⟨(none, some err), m, r.2⟩
  | none =>
    match json.unmarshalPeople r.1.body with
    | .error err =>
      ⟨(none, some (errorsNew ("Server returned unexpected response. " ++ err.Error))), m, r.2⟩
    | .ok results => ⟨(results, none), m, r.2⟩

/-- The URL `GetPersonByEmail` builds. -/
def getPersonByEmailUrl {σ : Type} (m : SisApi σ) (email : String) : String :=
  m.base ++ "api/person?token=" ++ m.token ++ "&email=" ++ QueryEscape email

/-- `GetPersonByEmail`. -/
def GetPersonByEmail {σ : Type} (json : Json) (m : SisApi σ) (w : World σ) (email : String) :
    Ret (Option Person × Option GoError) σ :=
  let url := getPersonByEmailUrl m email
  let w := callDebug m w "Fetch: %s" [url]
  let r := callGetUrl m w url
  match r.1.err with
  | some err => ⟨(none, some err), m, r.2⟩
  | none =>
    match json.unmarshalPerson r.1.body with
    | .error err =>
      ⟨(none, some (errorsNew ("Server returned unexpected response. " ++ err.Error))), m, r.2⟩
    | .ok result =>
      if result.Error ≠ "" then ⟨(none, some (errorsNew result.Error)), m, r.2⟩
      else if result.Uuid = "" then ⟨(none, none), m, r.2⟩
      else ⟨(some result, none), m, r.2⟩

/-- The verb `%d` of `fmt.Sprintf` on an `int`. -/
def formatInt (n : Int) : String := toString n

/-- The URL `RemovePersonFromGroup` builds. -/
def removePersonFromGroupUrl {σ : Type} (m : SisApi σ) (personUuid group : String)
    (intakeYear : Int) (intakeSemester : String) : String :=
  m.base ++ "api/group.remove?token=" ++ m.token ++ "&person=" ++ personUuid ++ "&group=" ++
    QueryEscape group ++ "&year=" ++ formatInt intakeYear ++ "&semester=" ++ intakeSemester

/-- `RemovePersonFromGroup`. -/
def RemovePersonFromGroup {σ : Type} (json : Json) (m : SisApi σ) (w : World σ)
    (personUuid group : String) (intakeYear : Int) (intakeSemester : String) :
    Ret (Option GoError) σ :=
  let url := removePersonFromGroupUrl m personUuid group intakeYear intakeSemester
  let w := callDebug m w "Fetch: %s" [url]
  let r := callGetUrl m w url
  match r.1.err with
  | some err => ⟨some err, m, r.2⟩
  | none =>
    match json.unmarshalResponse r.1.body with
    | .error err =>
      ⟨some (errorsNew ("Server returned unexpected response. " ++ err.Error)), m, r.2⟩
    | .ok result =>
      if result.Success ≠ "" then ⟨none, m, r.2⟩
      else ⟨some (errorsNew result.Error), m, r.2⟩

/-- The URL `AddPersonToGroup` builds. -/
def addPersonToGroupUrl {σ : Type} (m : SisApi σ) (personUuid group : String)
    (intakeYear : Int) (intakeSemester : String) : String :=
  m.base ++ "api/group.add?token=" ++ m.token ++ "&person=" ++ personUuid ++ "&group=" ++
    QueryEscape group ++ "&year=" ++ formatInt intakeYear ++ "&semester=" ++ intakeSemester

/-- `AddPersonToGroup`. -/
def AddPersonToGroup {σ : Type} (json : Json) (m : SisApi σ) (w : World σ)
    (personUuid group : String) (intakeYear : Int) (intakeSemester : String) :
    Ret (Option GoError) σ :=
  let url := addPersonToGroupUrl m personUuid group intakeYear intakeSemester
  let w := callDebug m w "Fetch: %s" [url]
  let r := callGetUrl m w url
  match r.1.err with
  | some err => ⟨some err, m, r.2⟩
  | none =>
    match json.unmarshalResponse r.1.body with
    | .error err =>
      ⟨some (errorsNew ("Server returned unexpected response. " ++ err.Error)), m, r.2⟩
    | .ok result =>
      if result.Success ≠ "" then ⟨none, m, r.2⟩
      else ⟨some (errorsNew result.Error), m, r.2⟩

/-! ## The six operations, uniformly -/

/-- A call of one of the six operations of the client, with its arguments. -/
inductive Op where
  | authenticate
  | getPerson (uuid : String)
  | searchPeople (q : String)
  | getPersonByEmail (email : String)
  | removePersonFromGroup (personUuid group : String) (intakeYear : Int) (intakeSemester : String)
  | addPersonToGroup (personUuid group : String) (intakeYear : Int) (intakeSemester : String)
  deriving DecidableEq, Repr

/-- The return values of an operation, side by side: the record (`*Person`), the
sequence (`[]Person`) and the error; an operation that has no record or no
sequence in its signature leaves that field `none`. -/
structure Returned where
  person : Option Person
  people : Option (List Person)
  err : Option GoError
  deriving DecidableEq, Repr

/-- The URL the operation builds on the client `m`. -/
def Op.url {σ : Type} (m : SisApi σ) : Op → String
  | .authenticate => authenticateUrl m
  | .getPerson uuid => getPersonUrl m uuid
  | .searchPeople q => searchPeopleUrl m q
  | .getPersonByEmail email => getPersonByEmailUrl m email
  | .removePersonFromGroup p g y s => removePersonFromGroupUrl m p g y s
  | .addPersonToGroup p g y s => addPersonToGroupUrl m p g y s

/-- Running the operation: the method of the client is called and its return
values are put side by side. -/
def Op.run {σ : Type} (json : Json) (m : SisApi σ) (w : World σ) : Op → Ret Returned σ
  | .authenticate =>
    let r := Authenticate json m w
    ⟨⟨none, none, r.val⟩, r.m, r.w⟩
  | .getPerson uuid =>
    let r := GetPerson json m w uuid
    ⟨⟨r.val.1, none, r.val.2⟩, r.m, r.w⟩
  | .searchPeople q =>
    let r := SearchPeople json m w q
    ⟨⟨none, r.val.1, r.val.2⟩, r.m, r.w⟩
  | .getPersonByEmail email =>
    let r := GetPersonByEmail json m w email
    ⟨⟨r.val.1, none, r.val.2⟩, r.m, r.w⟩
  | .removePersonFromGroup p g y s =>
    let r := RemovePersonFromGroup json m w p g y s
    ⟨⟨none, none, r.val⟩, r.m, r.w⟩
  | .addPersonToGroup p g y s =>
    let r := AddPersonToGroup json m w p g y s
    ⟨⟨none, none, r.val⟩, r.m, r.w⟩

/-- The error `json.Unmarshal` returns on `body` for the shape the operation
decodes into, `none` when the body decodes. -/
def Op.unmarshalError (json : Json) (body : String) : Op → Option GoError
  | .authenticate =>
    match json.unmarshalAuthResponse body with | .error e => some e | .ok _ => none
  | .getPerson _ => match json.unmarshalPerson body with | .error e => some e | .ok _ => none
  | .searchPeople _ => match json.unmarshalPeople body with | .error e => some e | .ok _ => none
  | .getPersonByEmail _ =>
    match json.unmarshalPerson body with | .error e => some e | .ok _ => none
  | .removePersonFromGroup _ _ _ _ =>
    match json.unmarshalResponse body with | .error e => some e | .ok _ => none
  | .addPersonToGroup _ _ _ _ =>
    match json.unmarshalResponse body with | .error e => some e | .ok _ => none

/-- The answer of the fetcher to the request for `url` that an operation makes
from the world `w`: the logger has been called first. -/
def answer {σ : Type} (m : SisApi σ) (w : World σ) (url : String) : GetUrlResult :=
  (callGetUrl m (callDebug m w "Fetch: %s" [url]) url).1

/-- A sequence of operations, one after the other on the same client; the
return values are dropped, the client and the world are threaded through. -/
def runAll {σ : Type} (json : Json) : List Op → SisApi σ → World σ → SisApi σ × World σ
  | [], m, w => (m, w)
  | op :: ops, m, w => runAll json ops (op.run json m w).m (op.run json m w).w

/-- The text `sub` occurs in `s`. -/
def Contains (s sub : String) : Prop := sub.data <:+: s.data

instance (s sub : String) : Decidable (Contains s sub) := by
  unfold Contains; infer_instance

/-! ## Fixtures for the concrete instances -/

/-- A fetcher that gives the same answer to every request, in a world without state. -/
def stubFetch (r : GetUrlResult) : LookupUrl Unit := ⟨fun _ _ => (r, ())⟩

/-- The error of `json.Unmarshal` on a body that does not start a JSON value. -/
def stubDecodeError (body : String) : GoError :=
  match body.data with
  | [] => ⟨"unexpected end of JSON input"⟩
  | c :: _ => ⟨"invalid character '" ++ String.singleton c ++ "' looking for beginning of value"⟩

/-- A decoder that knows a few bodies and rejects the others. -/
def stubJson : Json where
  unmarshalAuthResponse body :=
    if body = "\x7b\"Token\":\"abc\"\x7d" then .ok ⟨"abc", ""⟩
    else if body = "\x7b\"Error\":\"bad creds\"\x7d" then .ok ⟨"", "bad creds"⟩
    else .error (stubDecodeError body)
  unmarshalPerson body :=
    if body = "\x7b\x7d" then .ok ⟨"", "", "", "", "", "", "", "", "", ""⟩
    else if body = "\x7b\"Uuid\":\"u1\",\"FirstName\":\"Kim\"\x7d" then
      .ok ⟨"u1", "", "Kim", "", "", "", "", "", "", ""⟩
    else if body = "\x7b\"Error\":\"no such person\"\x7d" then
      .ok ⟨"", "", "", "", "", "", "", "", "no such person", ""⟩
    else .error (stubDecodeError body)
  unmarshalPeople body :=
    if body = "[]" then .ok (some [])
    else if body = "null" then .ok none
    else if body = "[\x7b\"Uuid\":\"u1\"\x7d,\x7b\"Uuid\":\"u2\",\"Error\":\"x\"\x7d]" then
      .ok (some [⟨"u1", "", "", "", "", "", "", "", "", ""⟩,
        ⟨"u2", "", "", "", "", "", "", "", "x", ""⟩])
    else .error (stubDecodeError body)
  unmarshalResponse body :=
    if body = "\x7b\"Success\":\"1\"\x7d" then .ok ⟨"1", ""⟩
    else if body = "\x7b\"Error\":\"not in group\"\x7d" then .ok ⟨"", "not in group"⟩
    else .error (stubDecodeError body)

/-- A client on the stub fetcher, with the given token. -/
def stubClient (token : String) (r : GetUrlResult) : SisApi Unit :=
  { base := "http://sis/", email := "kim@example.com", password := "p w", token := token,
    log := NilSisLogger, fetch := stubFetch r }

/-- The empty world. -/
def world0 : World Unit := ⟨(), []⟩

/-! ## Shape of every operation -/

theorem run_trace {σ : Type} (json : Json) (m : SisApi σ) (w : World σ) (op : Op) :
    (op.run json m w).w.trace =
      w.trace ++ [Effect.Debug "Fetch: %s" [op.url m], Effect.GetUrl (op.url m)] := by
  cases op <;>
    simp only [Op.run, Op.url, Authenticate, GetPerson, SearchPeople, GetPersonByEmail,
      RemovePersonFromGroup, AddPersonToGroup, callGetUrl, callDebug] <;>
    split <;> try split <;> try split <;> try split
  all_goals simp

theorem run_client {σ : Type} (json : Json) (m : SisApi σ) (w : World σ) (op : Op)
    (h : op ≠ Op.authenticate) : (op.run json m w).m = m := by
  cases op
  case authenticate => exact absurd rfl h
  all_goals
    simp only [Op.run, GetPerson, SearchPeople, GetPersonByEmail, RemovePersonFromGroup,
      AddPersonToGroup]
    split <;> try split <;> try split <;> try split
  all_goals rfl

theorem url_contains_token {σ : Type} (m : SisApi σ) (op : Op) (h : op ≠ Op.authenticate) :
    Contains (op.url m) ("token=" ++ m.token) := by
  cases op
  case authenticate => exact absurd rfl h
  case getPerson uuid =>
    exact ⟨m.base.data ++ "api/person?".data, "&uuid=".data ++ (QueryEscape uuid).data, by
      simp [Op.url, getPersonUrl]⟩
  case searchPeople q =>
    exact ⟨m.base.data ++ "api/student.search?".data, "&q=".data ++ (QueryEscape q).data, by
      simp [Op.url, searchPeopleUrl]⟩
  case getPersonByEmail email =>
    exact ⟨m.base.data ++ "api/person?".data, "&email=".data ++ (QueryEscape email).data, by
      simp [Op.url, getPersonByEmailUrl]⟩
  case removePersonFromGroup p g y s =>
    exact ⟨m.base.data ++ "api/group.remove?".data,
      "&person=".data ++ p.data ++ "&group=".data ++ (QueryEscape g).data ++ "&year=".data ++
        (formatInt y).data ++ "&semester=".data ++ s.data, by
      simp [Op.url, removePersonFromGroupUrl]⟩
  case addPersonToGroup p g y s =>
    exact ⟨m.base.data ++ "api/group.add?".data,
      "&person=".data ++ p.data ++ "&group=".data ++ (QueryEscape g).data ++ "&year=".data ++
        (formatInt y).data ++ "&semester=".data ++ s.data, by
      simp [Op.url, addPersonToGroupUrl]⟩

theorem runAll_spec {σ : Type} (json : Json) (ops : List Op) :
    ∀ (m : SisApi σ) (w : World σ), Op.authenticate ∉ ops →
      (runAll json ops m w).1 = m ∧
      (runAll json ops m w).2.trace = w.trace ++ ops.flatMap fun op =>
        [Effect.Debug "Fetch: %s" [op.url m], Effect.GetUrl (op.url m)] := by
  induction ops with
  | nil => intro m w _; simp [runAll]
  | cons op ops ih =>
    intro m w h
    have hop : op ≠ Op.authenticate := fun e => h (by simp [e])
    have hops : Op.authenticate ∉ ops := fun e => h (by simp [e])
    have hm := run_client json m w op hop
    have := ih (op.run json m w).m (op.run json m w).w hops
    rw [hm] at this
    simp only [runAll, hm]
    refine ⟨this.1, ?_⟩
    rw [this.2, run_trace]
    simp

/-! ## What `QueryEscape` produces -/

set_option maxRecDepth 100000 in
theorem escapeByte_chars : ∀ n < 256, ∀ c ∈ escapeByte n, escapedChar c = true := by
  decide

theorem QueryEscape_chars (s : String) : ∀ c ∈ (QueryEscape s).data, escapedChar c = true := by
  intro c hc
  simp only [QueryEscape, List.mem_flatMap] at hc
  obtain ⟨b, _, hb⟩ := hc
  exact escapeByte_chars b.toNat b.val.isLt c hb

/-! ## The claims -/

/-- C10: every call of every operation makes exactly one `Debug` call of the
logger and then exactly one `GetUrl` call of the fetcher, nothing else and in
that order, on every outcome; the item logged is the URL that is fetched. -/
theorem one_debug_then_one_fetch {σ : Type} (json : Json) (m : SisApi σ) (w : World σ)
    (op : Op) :
    (op.run json m w).w.trace =
      w.trace ++ [Effect.Debug "Fetch: %s" [op.url m], Effect.GetUrl (op.url m)] :=
  run_trace json m w op

/-- C7: for each of the six operations, when the fetch returns no error and the
body does not decode as the expected shape, with decoder error `e`, the
operation returns an error, and the text of that error is
"Server returned unexpected response. " followed by the text of `e`; it returns
no record and no sequence. -/
theorem decode_failure_wrapped {σ : Type} (json : Json) (m : SisApi σ) (w : World σ)
    (op : Op) (body : String) (e : GoError)
    (hf : answer m w (op.url m) = ⟨body, none⟩)
    (hd : op.unmarshalError json body = some e) :
    (op.run json m w).val.err =
        some (errorsNew ("Server returned unexpected response. " ++ e.Error)) ∧
      (∃ err, (op.run json m w).val.err = some err ∧
        err.Error = "Server returned unexpected response. " ++ e.Error) ∧
      (op.run json m w).val.person = none ∧ (op.run json m w).val.people = none := by
  unfold answer at hf
  have herr : (op.run json m w).val.err =
        some (errorsNew ("Server returned unexpected response. " ++ e.Error)) ∧
      (op.run json m w).val.person = none ∧ (op.run json m w).val.people = none := by
    cases op <;> simp only [Op.url] at hf <;> simp only [Op.unmarshalError] at hd <;>
      split at hd <;> simp_all [Op.run, Authenticate, GetPerson, SearchPeople, GetPersonByEmail,
        RemovePersonFromGroup, AddPersonToGroup]
  exact ⟨herr.1, ⟨_, herr.1, rfl⟩, herr.2⟩

theorem decode_failure_wrapped_witness :
    (Op.run stubJson (stubClient "t" ⟨"<html>", none⟩) world0 (Op.searchPeople "kim")).val.err =
        some (errorsNew ("Server returned unexpected response. " ++
          "invalid character '<' looking for beginning of value")) ∧
      (∃ err, (Op.run stubJson (stubClient "t" ⟨"<html>", none⟩) world0
          (Op.searchPeople "kim")).val.err = some err ∧
        err.Error = "Server returned unexpected response. " ++
          "invalid character '<' looking for beginning of value") ∧
      (Op.run stubJson (stubClient "t" ⟨"<html>", none⟩) world0
        (Op.searchPeople "kim")).val.person = none ∧
      (Op.run stubJson (stubClient "t" ⟨"<html>", none⟩) world0
        (Op.searchPeople "kim")).val.people = none :=
  decode_failure_wrapped stubJson (stubClient "t" ⟨"<html>", none⟩) world0
    (Op.searchPeople "kim") "<html>" ⟨"invalid character '<' looking for beginning of value"⟩
    (by decide) (by decide)

/-- C8: for each of the six operations, when the fetcher returns an error `e`,
with whatever body, the operation returns exactly `e`, no record and no
sequence, and the decoder plays no part: the result is the same with any other
decoder. -/
theorem fetch_error_returned_unchanged {σ : Type} (json : Json) (m : SisApi σ) (w : World σ)
    (op : Op) (body : String) (e : GoError)
    (hf : answer m w (op.url m) = ⟨body, some e⟩) :
    (op.run json m w).val = ⟨none, none, some e⟩ ∧
      ∀ json2 : Json, (op.run json2 m w).val = (op.run json m w).val := by
  unfold answer at hf
  cases op <;> simp only [Op.url] at hf <;>
    simp [Op.run, Authenticate, GetPerson, SearchPeople, GetPersonByEmail,
      RemovePersonFromGroup, AddPersonToGroup, hf]

theorem fetch_error_returned_unchanged_witness :
    (Op.run stubJson (stubClient "t" ⟨"[]", some ⟨"dial tcp: timeout"⟩⟩) world0
        (Op.searchPeople "kim")).val = ⟨none, none, some ⟨"dial tcp: timeout"⟩⟩ ∧
      ∀ json2 : Json,
        (Op.run json2 (stubClient "t" ⟨"[]", some ⟨"dial tcp: timeout"⟩⟩) world0
          (Op.searchPeople "kim")).val =
        (Op.run stubJson (stubClient "t" ⟨"[]", some ⟨"dial tcp: timeout"⟩⟩) world0
          (Op.searchPeople "kim")).val :=
  fetch_error_returned_unchanged stubJson (stubClient "t" ⟨"[]", some ⟨"dial tcp: timeout"⟩⟩)
    world0 (Op.searchPeople "kim") "[]" ⟨"dial tcp: timeout"⟩ (by decide)

/-- C1: when the fetch for the authenticate request returns no error and a body
that decodes to an object with `Token` `t` and empty `Error`, `Authenticate`
returns no error and the token of the client is `t` afterwards; every later
sequence of calls of `GetPerson`, `GetPersonByEmail`, `SearchPeople`,
`AddPersonToGroup` and `RemovePersonFromGroup`, from any world, leaves the
client as it is, logs and fetches one URL per call, and each of these URLs
contains the text `token=t`. -/
theorem authenticate_stores_token {σ : Type} (json : Json) (m : SisApi σ) (w : World σ)
    (body t : String) (res : AuthResponse)
    (hf : answer m w (authenticateUrl m) = ⟨body, none⟩)
    (hd : json.unmarshalAuthResponse body = Except.ok res)
    (hT : res.Token = t) (hE : res.Error = "") :
    (Authenticate json m w).val = none ∧ (Authenticate json m w).m.token = t ∧
      ∀ (ops : List Op) (w2 : World σ), Op.authenticate ∉ ops →
        (runAll json ops (Authenticate json m w).m w2).1 = (Authenticate json m w).m ∧
        (runAll json ops (Authenticate json m w).m w2).2.trace =
          w2.trace ++ (ops.flatMap fun op =>
            [Effect.Debug "Fetch: %s" [op.url (Authenticate json m w).m],
              Effect.GetUrl (op.url (Authenticate json m w).m)]) ∧
        ∀ op ∈ ops, Contains (op.url (Authenticate json m w).m) ("token=" ++ t) := by
  unfold answer at hf
  have htok : (Authenticate json m w).m.token = t := by
    simp [Authenticate, hf, hd, hE, hT]
  refine ⟨by simp [Authenticate, hf, hd, hE], htok, ?_⟩
  intro ops w2 hops
  refine ⟨(runAll_spec json ops _ w2 hops).1, (runAll_spec json ops _ w2 hops).2, ?_⟩
  intro op hop
  have hne : op ≠ Op.authenticate := fun e => hops (e ▸ hop)
  have := url_contains_token (Authenticate json m w).m op hne
  rwa [htok] at this

theorem authenticate_stores_token_witness :
    (Authenticate stubJson (stubClient "" ⟨"\x7b\"Token\":\"abc\"\x7d", none⟩) world0).val = none ∧
      (Authenticate stubJson (stubClient "" ⟨"\x7b\"Token\":\"abc\"\x7d", none⟩)
        world0).m.token = "abc" ∧
      Contains
        (Op.url (Authenticate stubJson (stubClient "" ⟨"\x7b\"Token\":\"abc\"\x7d", none⟩)
          world0).m (Op.searchPeople "kim smith")) ("token=" ++ "abc") :=
  have h := authenticate_stores_token stubJson
    (stubClient "" ⟨"\x7b\"Token\":\"abc\"\x7d", none⟩) world0 "\x7b\"Token\":\"abc\"\x7d" "abc"
    ⟨"abc", ""⟩ (by decide) (by rfl) rfl rfl
  ⟨h.1, h.2.1,
    (h.2.2 [Op.searchPeople "kim smith"] world0 (by decide)).2.2 _ (List.mem_singleton.2 rfl)⟩

/-- C2: whenever `Authenticate` returns an error, the client is what it was
before the call, its token included; on a client fresh from `NewSisApi`, with
or without a logger and a fetcher set on it, the token is still empty. -/
theorem failed_authenticate_keeps_token {σ : Type} (json : Json) (m : SisApi σ) (w : World σ)
    (h : (Authenticate json m w).val ≠ none) :
    (Authenticate json m w).m = m ∧ (Authenticate json m w).m.token = m.token ∧
      ∀ (d f : LookupUrl σ) (l : SisLogger σ) (base email password : String),
        (m = NewSisApi d base email password ∨
          m = SetUrlFetcher (SetLogger (NewSisApi d base email password) l) f) →
        (Authenticate json m w).m.token = "" := by
  have hm : (Authenticate json m w).m = m := by
    revert h
    simp only [Authenticate]
    split
    · intro _; rfl
    · split
      · intro _; rfl
      · split
        · intro _; rfl
        · intro h; exact absurd rfl h
  refine ⟨hm, by rw [hm], ?_⟩
  intro d f l base email password hfresh
  rw [hm]
  rcases hfresh with h1 | h1 <;> rw [h1] <;> rfl

theorem failed_authenticate_keeps_token_witness :
    (Authenticate stubJson
        (NewSisApi (stubFetch ⟨"\x7b\"Error\":\"bad creds\"\x7d", none⟩) "http://sis/" "kim@example.com"
          "pw") world0).val = some (errorsNew "bad creds") ∧
      (Authenticate stubJson
        (NewSisApi (stubFetch ⟨"\x7b\"Error\":\"bad creds\"\x7d", none⟩) "http://sis/" "kim@example.com"
          "pw") world0).m.token = "" :=
  ⟨by decide,
    (failed_authenticate_keeps_token stubJson
      (NewSisApi (stubFetch ⟨"\x7b\"Error\":\"bad creds\"\x7d", none⟩) "http://sis/" "kim@example.com"
        "pw") world0 (by decide)).2.2 (stubFetch ⟨"\x7b\"Error\":\"bad creds\"\x7d", none⟩)
      (stubFetch ⟨"", none⟩) NilSisLogger "http://sis/" "kim@example.com" "pw" (Or.inl rfl)⟩

/-- C4: when the fetch returns no error and a body that decodes to a `Person`
`p` with empty `Error`, `GetPersonByEmail` returns (nil, nil) if and only if
`p.Uuid` is empty, it returns `p` itself and a nil error when `p.Uuid` is not
empty, and in both cases the error is nil. -/
theorem getPersonByEmail_not_found {σ : Type} (json : Json) (m : SisApi σ) (w : World σ)
    (email body : String) (p : Person)
    (hf : answer m w (getPersonByEmailUrl m email) = ⟨body, none⟩)
    (hd : json.unmarshalPerson body = Except.ok p) (hE : p.Error = "") :
    ((GetPersonByEmail json m w email).val = (none, none) ↔ p.Uuid = "") ∧
      (p.Uuid ≠ "" → (GetPersonByEmail json m w email).val = (some p, none)) ∧
      (GetPersonByEmail json m w email).val.2 = none := by
  unfold answer at hf
  by_cases hu : p.Uuid = "" <;> simp [GetPersonByEmail, hf, hd, hE, hu]

theorem getPersonByEmail_not_found_witness :
    ((GetPersonByEmail stubJson (stubClient "t" ⟨"\x7b\x7d", none⟩) world0 "kim@example.com").val =
        (none, none) ↔ (⟨"", "", "", "", "", "", "", "", "", ""⟩ : Person).Uuid = "") ∧
      ((⟨"", "", "", "", "", "", "", "", "", ""⟩ : Person).Uuid ≠ "" →
        (GetPersonByEmail stubJson (stubClient "t" ⟨"\x7b\x7d", none⟩) world0 "kim@example.com").val =
          (some ⟨"", "", "", "", "", "", "", "", "", ""⟩, none)) ∧
      (GetPersonByEmail stubJson (stubClient "t" ⟨"\x7b\x7d", none⟩) world0
        "kim@example.com").val.2 = none :=
  getPersonByEmail_not_found stubJson (stubClient "t" ⟨"\x7b\x7d", none⟩) world0 "kim@example.com"
    "\x7b\x7d" ⟨"", "", "", "", "", "", "", "", "", ""⟩ (by decide) (by rfl) rfl

/-- C5: for `AddPersonToGroup`, and likewise for `RemovePersonFromGroup`, each on
its own: when the fetch of the operation returns no error and a body that
decodes to an ack, the operation returns a nil error if and only if `Success`
is not empty, and when `Success` is empty it returns an error whose text is the
decoded `Error`. -/
theorem group_ack {σ : Type} (json : Json) (m : SisApi σ) (w : World σ)
    (personUuid group : String) (intakeYear : Int) (intakeSemester : String) :
    (∀ (body : String) (ack : Response),
      answer m w (addPersonToGroupUrl m personUuid group intakeYear intakeSemester) =
        ⟨body, none⟩ →
      json.unmarshalResponse body = Except.ok ack →
      ((AddPersonToGroup json m w personUuid group intakeYear intakeSemester).val = none ↔
          ack.Success ≠ "") ∧
        (ack.Success = "" →
          (AddPersonToGroup json m w personUuid group intakeYear intakeSemester).val =
            some (errorsNew ack.Error) ∧ (errorsNew ack.Error).Error = ack.Error)) ∧
    (∀ (body : String) (ack : Response),
      answer m w (removePersonFromGroupUrl m personUuid group intakeYear intakeSemester) =
        ⟨body, none⟩ →
      json.unmarshalResponse body = Except.ok ack →
      ((RemovePersonFromGroup json m w personUuid group intakeYear intakeSemester).val = none ↔
          ack.Success ≠ "") ∧
        (ack.Success = "" →
          (RemovePersonFromGroup json m w personUuid group intakeYear intakeSemester).val =
            some (errorsNew ack.Error) ∧ (errorsNew ack.Error).Error = ack.Error)) := by
  constructor
  · intro body ack hf hd
    unfold answer at hf
    by_cases hs : ack.Success = "" <;> simp [AddPersonToGroup, hf, hd, hs, errorsNew]
  · intro body ack hf hd
    unfold answer at hf
    by_cases hs : ack.Success = "" <;> simp [RemovePersonFromGroup, hf, hd, hs, errorsNew]

theorem group_ack_witness :
    ((AddPersonToGroup stubJson (stubClient "t" ⟨"\x7b\"Error\":\"not in group\"\x7d", none⟩) world0
        "u1" "staff" 2020 "1").val = some (errorsNew "not in group") ∧
      (errorsNew "not in group").Error = "not in group") ∧
    ((RemovePersonFromGroup stubJson (stubClient "t" ⟨"\x7b\"Error\":\"not in group\"\x7d", none⟩)
        world0 "u1" "staff" 2020 "1").val = some (errorsNew "not in group") ∧
      (errorsNew "not in group").Error = "not in group") ∧
    ((AddPersonToGroup stubJson (stubClient "t" ⟨"\x7b\"Success\":\"1\"\x7d", none⟩) world0
        "u1" "staff" 2020 "1").val = none ↔ (⟨"1", ""⟩ : Response).Success ≠ "") ∧
    ((RemovePersonFromGroup stubJson (stubClient "t" ⟨"\x7b\"Success\":\"1\"\x7d", none⟩) world0
        "u1" "staff" 2020 "1").val = none ↔ (⟨"1", ""⟩ : Response).Success ≠ "") :=
  ⟨((group_ack stubJson (stubClient "t" ⟨"\x7b\"Error\":\"not in group\"\x7d", none⟩) world0
      "u1" "staff" 2020 "1").1 "\x7b\"Error\":\"not in group\"\x7d" ⟨"", "not in group"⟩
      (by decide) (by rfl)).2 rfl,
    ((group_ack stubJson (stubClient "t" ⟨"\x7b\"Error\":\"not in group\"\x7d", none⟩) world0
      "u1" "staff" 2020 "1").2 "\x7b\"Error\":\"not in group\"\x7d" ⟨"", "not in group"⟩
      (by decide) (by rfl)).2 rfl,
    ((group_ack stubJson (stubClient "t" ⟨"\x7b\"Success\":\"1\"\x7d", none⟩) world0
      "u1" "staff" 2020 "1").1 "\x7b\"Success\":\"1\"\x7d" ⟨"1", ""⟩ (by decide) (by rfl)).1,
    ((group_ack stubJson (stubClient "t" ⟨"\x7b\"Success\":\"1\"\x7d", none⟩) world0
      "u1" "staff" 2020 "1").2 "\x7b\"Success\":\"1\"\x7d" ⟨"1", ""⟩ (by decide) (by rfl)).1⟩

/-- C6: when the fetch returns no error and a body that decodes to an array of
`Person` records, `SearchPeople` returns that array, with as many elements, each
at its place, and a nil error, whatever the `Error` fields of the records; for
an empty array it returns the empty sequence and a nil error. And `SearchPeople`
returns an error only when the fetch returned an error or the body did not
decode. -/
theorem searchPeople_returns_decoded {σ : Type} (json : Json) (m : SisApi σ) (w : World σ)
    (q body : String) (ps : List Person)
    (hf : answer m w (searchPeopleUrl m q) = ⟨body, none⟩)
    (hd : json.unmarshalPeople body = Except.ok (some ps)) :
    (SearchPeople json m w q).val = (some ps, none) ∧
      (∃ rs, (SearchPeople json m w q).val.1 = some rs ∧ rs.length = ps.length ∧
        ∀ i, rs.get? i = ps.get? i) ∧
      (ps = [] → (SearchPeople json m w q).val = (some [], none)) ∧
      ∀ (json2 : Json) (m2 : SisApi σ) (w2 : World σ) (q2 : String),
        (SearchPeople json2 m2 w2 q2).val.2 ≠ none →
          (answer m2 w2 (searchPeopleUrl m2 q2)).err ≠ none ∨
          ∃ e, json2.unmarshalPeople (answer m2 w2 (searchPeopleUrl m2 q2)).body =
            Except.error e := by
  unfold answer at hf
  have hv : (SearchPeople json m w q).val = (some ps, none) := by
    simp [SearchPeople, hf, hd]
  refine ⟨hv, ⟨ps, by rw [hv], rfl, fun _ => rfl⟩, fun h => by rw [hv, h], ?_⟩
  intro json2 m2 w2 q2
  unfold answer
  simp only [SearchPeople]
  split
  · intro _; left; simp [*]
  · split
    · intro _; right; exact ⟨_, by assumption⟩
    · intro h; exact absurd rfl h

theorem searchPeople_returns_decoded_witness :
    (SearchPeople stubJson
        (stubClient "t" ⟨"[\x7b\"Uuid\":\"u1\"\x7d,\x7b\"Uuid\":\"u2\",\"Error\":\"x\"\x7d]", none⟩) world0
        "kim smith").val =
      (some [⟨"u1", "", "", "", "", "", "", "", "", ""⟩,
        ⟨"u2", "", "", "", "", "", "", "", "x", ""⟩], none) :=
  (searchPeople_returns_decoded stubJson
    (stubClient "t" ⟨"[\x7b\"Uuid\":\"u1\"\x7d,\x7b\"Uuid\":\"u2\",\"Error\":\"x\"\x7d]", none⟩) world0
    "kim smith" "[\x7b\"Uuid\":\"u1\"\x7d,\x7b\"Uuid\":\"u2\",\"Error\":\"x\"\x7d]"
    [⟨"u1", "", "", "", "", "", "", "", "", ""⟩, ⟨"u2", "", "", "", "", "", "", "", "x", ""⟩]
    (by decide) (by rfl)).1

/-- C9: when the fetch returns no error and a body that decodes to a `Person`
`p`, `GetPerson` returns an error if and only if `p.Error` is not empty; the
error then has the text `p.Error` and the record is nil; when `p.Error` is empty
it returns `p` itself and a nil error, also when `p.Uuid` is empty. -/
theorem getPerson_result {σ : Type} (json : Json) (m : SisApi σ) (w : World σ)
    (uuid body : String) (p : Person)
    (hf : answer m w (getPersonUrl m uuid) = ⟨body, none⟩)
    (hd : json.unmarshalPerson body = Except.ok p) :
    ((GetPerson json m w uuid).val.2 ≠ none ↔ p.Error ≠ "") ∧
      (p.Error ≠ "" → (GetPerson json m w uuid).val = (none, some (errorsNew p.Error)) ∧
        (errorsNew p.Error).Error = p.Error) ∧
      (p.Error = "" → (GetPerson json m w uuid).val = (some p, none)) := by
  unfold answer at hf
  by_cases he : p.Error = "" <;> simp [GetPerson, hf, hd, he, errorsNew]

theorem getPerson_result_witness :
    (GetPerson stubJson (stubClient "t" ⟨"\x7b\x7d", none⟩) world0 "u9").val =
      (some ⟨"", "", "", "", "", "", "", "", "", ""⟩, none) :=
  (getPerson_result stubJson (stubClient "t" ⟨"\x7b\x7d", none⟩) world0 "u9" "\x7b\x7d"
    ⟨"", "", "", "", "", "", "", "", "", ""⟩ (by decide) (by rfl)).2.2 rfl

set_option maxRecDepth 100000 in
/-- C3, as stated, fails: the token, the `person` value and the `semester` value
are put in the URL as they are. With the token `a b`, `GetPerson` fetches a URL
that has the raw space of the token and not its escaped form `a+b`; with the
person `p&x` and the semester `s 1`, `AddPersonToGroup` and
`RemovePersonFromGroup` fetch URLs that have these values raw and not their
escaped forms `p%26x` and `s+1`. -/
theorem raw_values_in_url :
    ((GetPerson stubJson (stubClient "a b" ⟨"", none⟩) world0 "u").w.trace =
        [Effect.Debug "Fetch: %s" ["http://sis/api/person?token=a b&uuid=u"],
          Effect.GetUrl "http://sis/api/person?token=a b&uuid=u"] ∧
      Char.ofNat 32 ∈ "http://sis/api/person?token=a b&uuid=u".data ∧
      QueryEscape "a b" = "a+b" ∧
      ¬ Contains "http://sis/api/person?token=a b&uuid=u" ("token=" ++ QueryEscape "a b")) ∧
    ((AddPersonToGroup stubJson (stubClient "t" ⟨"", none⟩) world0 "p&x" "g" 2020 "s 1").w.trace =
        [Effect.Debug "Fetch: %s"
            ["http://sis/api/group.add?token=t&person=p&x&group=g&year=2020&semester=s 1"],
          Effect.GetUrl
            "http://sis/api/group.add?token=t&person=p&x&group=g&year=2020&semester=s 1"] ∧
      QueryEscape "p&x" = "p%26x" ∧ QueryEscape "s 1" = "s+1" ∧
      ¬ Contains "http://sis/api/group.add?token=t&person=p&x&group=g&year=2020&semester=s 1"
        ("person=" ++ QueryEscape "p&x") ∧
      ¬ Contains "http://sis/api/group.add?token=t&person=p&x&group=g&year=2020&semester=s 1"
        ("semester=" ++ QueryEscape "s 1")) ∧
    ((RemovePersonFromGroup stubJson (stubClient "t" ⟨"", none⟩) world0 "p&x" "g" 2020
          "s 1").w.trace =
        [Effect.Debug "Fetch: %s"
            ["http://sis/api/group.remove?token=t&person=p&x&group=g&year=2020&semester=s 1"],
          Effect.GetUrl
            "http://sis/api/group.remove?token=t&person=p&x&group=g&year=2020&semester=s 1"] ∧
      ¬ Contains "http://sis/api/group.remove?token=t&person=p&x&group=g&year=2020&semester=s 1"
        ("person=" ++ QueryEscape "p&x") ∧
      ¬ Contains "http://sis/api/group.remove?token=t&person=p&x&group=g&year=2020&semester=s 1"
        ("semester=" ++ QueryEscape "s 1")) := by
  refine ⟨⟨by decide, by decide, by decide, by decide⟩,
    ⟨by decide, by decide, by decide, by decide, by decide⟩,
    ⟨by decide, by decide, by decide⟩⟩

/-- C3, amended: in the URL handed to the fetcher, the values of `email` and
`password` (`Authenticate`), `uuid` (`GetPerson`), `email` (`GetPersonByEmail`),
`q` (`SearchPeople`) and `group` (`AddPersonToGroup`, `RemovePersonFromGroup`)
stand in the form `url.QueryEscape` gives them, and that form has no space, no
`&` and no `@`: it is made of letters, digits, `-`, `_`, `.`, `~`, `%` and `+`.
The token follows `token=` as it is stored. `SearchPeople("kim smith")` fetches
a URL that ends in `q=kim+smith`. -/
theorem escaped_values_in_url {σ : Type} (json : Json) (m : SisApi σ) (w : World σ) :
    (∀ v c, c ∈ (QueryEscape v).data →
        escapedChar c = true ∧ c ≠ Char.ofNat 32 ∧ c ≠ '&' ∧ c ≠ '@') ∧
      (Authenticate json m w).w.trace.getLast? = some (Effect.GetUrl
        (m.base ++ "api/authenticate?email=" ++ QueryEscape m.email ++ "&password=" ++
          QueryEscape m.password)) ∧
      (∀ uuid, (GetPerson json m w uuid).w.trace.getLast? = some (Effect.GetUrl
        (m.base ++ "api/person?token=" ++ m.token ++ "&uuid=" ++ QueryEscape uuid))) ∧
      (∀ email, (GetPersonByEmail json m w email).w.trace.getLast? = some (Effect.GetUrl
        (m.base ++ "api/person?token=" ++ m.token ++ "&email=" ++ QueryEscape email))) ∧
      (∀ q, (SearchPeople json m w q).w.trace.getLast? = some (Effect.GetUrl
        (m.base ++ "api/student.search?token=" ++ m.token ++ "&q=" ++ QueryEscape q))) ∧
      (∀ person group year semester, ∃ u,
        (AddPersonToGroup json m w person group year semester).w.trace.getLast? =
          some (Effect.GetUrl u) ∧
        Contains u (m.base ++ "api/group.add?token=" ++ m.token ++ "&person=") ∧
        Contains u ("&group=" ++ QueryEscape group ++ "&year=" ++ formatInt year ++
          "&semester=")) ∧
      (∀ person group year semester, ∃ u,
        (RemovePersonFromGroup json m w person group year semester).w.trace.getLast? =
          some (Effect.GetUrl u) ∧
        Contains u (m.base ++ "api/group.remove?token=" ++ m.token ++ "&person=") ∧
        Contains u ("&group=" ++ QueryEscape group ++ "&year=" ++ formatInt year ++
          "&semester=")) ∧
      (SearchPeople json m w "kim smith").w.trace.getLast? = some (Effect.GetUrl
        (m.base ++ "api/student.search?token=" ++ m.token ++ "&q=kim+smith")) := by
  have key : ∀ op : Op, (op.run json m w).w.trace.getLast? = some (Effect.GetUrl (op.url m)) := by
    intro op
    rw [run_trace]
    simp
  refine ⟨?_, key Op.authenticate, fun uuid => key (Op.getPerson uuid),
    fun email => key (Op.getPersonByEmail email), fun q => key (Op.searchPeople q), ?_, ?_, ?_⟩
  · intro v c hc
    have h := QueryEscape_chars v c hc
    refine ⟨h, ?_, ?_, ?_⟩ <;> intro e <;> rw [e] at h <;> revert h <;> decide
  · intro p g y s
    refine ⟨addPersonToGroupUrl m p g y s, key (Op.addPersonToGroup p g y s), ?_, ?_⟩
    · exact ⟨[], p.data ++ "&group=".data ++ (QueryEscape g).data ++ "&year=".data ++
        (formatInt y).data ++ "&semester=".data ++ s.data, by simp [addPersonToGroupUrl]⟩
    · exact ⟨m.base.data ++ "api/group.add?token=".data ++ m.token.data ++ "&person=".data ++
        p.data, s.data, by simp [addPersonToGroupUrl]⟩
  · intro p g y s
    refine ⟨removePersonFromGroupUrl m p g y s, key (Op.removePersonFromGroup p g y s), ?_, ?_⟩
    · exact ⟨[], p.data ++ "&group=".data ++ (QueryEscape g).data ++ "&year=".data ++
        (formatInt y).data ++ "&semester=".data ++ s.data, by simp [removePersonFromGroupUrl]⟩
    · exact ⟨m.base.data ++ "api/group.remove?token=".data ++ m.token.data ++
        "&person=".data ++ p.data, s.data, by simp [removePersonFromGroupUrl]⟩
  · have := key (Op.searchPeople "kim smith")
    simp only [Op.run, Op.url, searchPeopleUrl] at this
    rw [this]
    have e : QueryEscape "kim smith" = "kim+smith" := by decide
    rw [e]
    simp [String.append_assoc]

end sisapi
